import Mathlib

/-!
Shallow embedding of `src/rosetta-stone-ez.py` (Rosetta-Stonks-V2).

The script automates completion of Rosetta Stone lessons: it discovers
courses/lessons below a completion threshold, splits a target number of
hours evenly over the eligible lessons, and for every step of every
activity builds and posts progress submissions.

Modelling conventions:
* Python floats are modelled as `ℚ` (exact arithmetic; the spec's
  "within floating tolerance" clauses are read at the rational level).
* Python `int(x)` (truncation toward zero) is `py_int`.
* JSON dictionaries are modelled as structures; a key that may be absent
  (`"additionalContent" in d`) becomes an `Option` field.
* `random.uniform(0., 0.1)` is an explicit jitter parameter `u` with the
  hypothesis `0 ≤ u ∧ u ≤ 1/10`.
* The HTTP transport is abstracted: a submission response is a pair of a
  status code and whether the parsed body contains an `errors` list, and
  the environment supplies a response stream indexed by request number.
* A Python run-time crash (an unhandled exception such as the implicit
  `None` return of `format_answers` being subscripted, or a division by
  zero on an empty fragment list) is modelled by `Option.none`.
* `sys.exit` at the discovery stage is modelled by `Option`/`RunOutcome`
  values: `exit(0)` on "no courses to complete" is the `noWork` outcome
  (a success status), `exit(1)` the fatal outcomes.
* The Python `dict` keyed by course id is modelled as an association
  list with in-place replacement (`dict_insert`), matching CPython's
  insertion-order semantics.
-/

/-- One card of a vocabulary carousel (only its `id` is used). -/
structure Card where
  id : String
  deriving Repr, DecidableEq

/-- First element of a card step's `content` array.  The Python code tests
`"additionalContent" in step["content"][0]` and `"carousel" in ...`, so both
keys are optional. -/
structure ContentElem where
  additionalContent : Option String
  carousel : Option (List (List Card))
  deriving Repr, DecidableEq

/-- A step of an activity, as consumed by `format_answers` and
`_complete_step`: its `type` tag, its `content` array, its list of correct
answer strings, and `activityStepId`. -/
structure Step where
  type : String
  content : List ContentElem
  correct : List String
  activityStepId : String
  deriving Repr, DecidableEq

/-- An `{answer, correct}` element of a submission's `answers` list. -/
structure Answer where
  answer : String
  correct : Bool
  deriving Repr, DecidableEq

/-- The return value of `format_answers`. -/
structure SubmissionPlan where
  fragmented : Bool
  answers : List Answer
  title : String
  deriving Repr, DecidableEq

/-- Embedding of `format_answers` (src/rosetta-stone-ez.py lines 15-59).
The Python function implicitly returns `None` for a `"card"` step whose
first content element has neither an `additionalContent` nor a `carousel`
key (and raises `IndexError` when `content` is empty); both are `none`
here. -/
def format_answers (step : Step) : Option SubmissionPlan :=
  if step.type = "card" then
    match step.content.head? with
    | none => none
    | some c0 =>
      match c0.additionalContent with
      | some _ =>
        some { fragmented := false
               answers := step.correct.map (fun a => ⟨a, true⟩)
               title := "Démonstration" }
      | none =>
        match c0.carousel with
        | some carousel =>
          some { fragmented := true
                 answers := carousel.flatten.map
                   (fun card => ⟨"SS:" ++ card.id ++ ":1:false", true⟩)
                 title := "Vocabulaire" }
        | none => none
  else
    some { fragmented := false
           answers := step.correct.map (fun a => ⟨a, true⟩)
           title :=
             if step.type = "multipleChoice" then "Choix multiple"
             else if step.type = "sequencing" then "Organiser"
             else if step.type = "cloze" then "Remplissez les blancs"
             else "Module inconnu" }

/-- A `{id, percentComplete}` entry of a progress report's `sequences`. -/
structure ProgressSeq where
  id : String
  percentComplete : ℚ
  deriving Repr, DecidableEq

/-- A per-course entry of the progress report. -/
structure ProgressCourse where
  courseId : String
  sequences : List ProgressSeq
  deriving Repr, DecidableEq

/-- Embedding of `get_lesson_progress` (lines 62-70): scan the progress
report for the first course entry with the matching `courseId` that holds
a sequence with the given lesson id; 0 when the lesson is not found. -/
def get_lesson_progress (progress : List ProgressCourse)
    (course_id lesson_id : String) : ℚ :=
  match progress with
  | [] => 0
  | course :: rest =>
    if course.courseId = course_id then
      match course.sequences.find? (fun s => s.id == lesson_id) with
      | some s => s.percentComplete
      | none => get_lesson_progress rest course_id lesson_id
    else get_lesson_progress rest course_id lesson_id

/-- Python `int(q)` for a rational `q`: truncation toward zero. -/
def py_int (q : ℚ) : ℤ :=
  if q < 0 then -⌊-q⌋ else ⌊q⌋

/-- The identifiers `_complete_step` packs into the `data` dict before
calling `_get_answer` (minus the per-submission `answers` list). -/
structure ReqBase where
  user_id : String
  course_id : String
  sequence_id : String
  activity_id : String
  activity_step_id : String
  deriving Repr, DecidableEq

/-- One progress message as built by `_get_answer` (lines 234-263).  The
freshly drawn `uuid4` attempt identifiers and the wall-clock
`endTimestamp` are nondeterministic run-time data and are not part of the
model; every field any claim speaks about is kept. -/
structure Payload where
  user_id : String
  course_id : String
  sequence_id : String
  version : ℕ
  activity_id : String
  activity_step_id : String
  answers : List Answer
  score : ℕ
  skip : Bool
  durationMs : ℤ
  deriving Repr, DecidableEq

/-- Embedding of `_get_answer`: builds the submission payload for one POST,
with `durationMs = int(hours * 60 * 60 * 1000)` and the session's current
schema `version`. -/
def get_answer (version : ℕ) (hours : ℚ) (base : ReqBase)
    (answers : List Answer) : Payload :=
  { user_id := base.user_id
    course_id := base.course_id
    sequence_id := base.sequence_id
    version := version
    activity_id := base.activity_id
    activity_step_id := base.activity_step_id
    answers := answers
    score := 1
    skip := false
    durationMs := py_int (hours * 60 * 60 * 1000) }

/-- A submission response as the script observes it: the transport status
code and whether the parsed JSON body contains an `errors` key. -/
structure Response where
  status : ℕ
  hasErrors : Bool
  deriving Repr, DecidableEq

/-- Embedding of `_answer_success` (lines 265-269): on a body with an
`errors` list, flip the session version (`(version + 1) % 2`) and report
failure; otherwise leave the version alone and report success.  Returns
(new version, success flag). -/
def answer_success (version : ℕ) (resp : Response) : ℕ × Bool :=
  if resp.hasErrors then ((version + 1) % 2, false) else (version, true)

/-- The fragmented branch of `_complete_step` (lines 275-291): one POST per
answer, each payload holding exactly that one answer and `hours / K` of
duration.  `version` and the running `success` flag thread through the
loop; since Python's `success = success and self._answer_success(...)`
short-circuits, `_answer_success` (and hence the version flip) is skipped
once `success` is false.  `resp i` is the response to the i-th POST of
this loop; the result is (payloads in POST order, final success flag,
final version). -/
def run_fragments (tta : ℚ) (base : ReqBase) (resp : ℕ → Response) :
    List Answer → ℕ → Bool → ℕ → List Payload × Bool × ℕ
  | [], version, success, _ => ([], success, version)
  | a :: rest, version, success, i =>
    let p := get_answer version tta base [a]
    let next := if success then answer_success version (resp i)
                else (version, false)
    let r := run_fragments tta base resp rest next.1 next.2 (i + 1)
    (p :: r.1, r.2.1, r.2.2)

/-- Embedding of `_complete_step` (lines 271-303).  Inputs: the request
identifiers, the step, the allocated `hours`, the session version before
the step, and the response stream for this step's POSTs.  Output `none`
models a Python crash: `format_answers` returning `None` (then subscripted
with `["fragmented"]`, a `TypeError`), or a fragmented plan with zero
answers (`hours / 0`, a `ZeroDivisionError`).  Otherwise
`some (payloads, success, version', used)`: the payloads POSTed in order,
the step's reported success flag, the session version after the step, and
the number of POSTs issued.  A fragmented plan posts once per answer and
folds `_answer_success` over the responses; a single-shot plan posts once
and succeeds iff the transport status is 200. -/
def complete_step (base : ReqBase) (step : Step) (hours : ℚ) (version : ℕ)
    (resp : ℕ → Response) : Option (List Payload × Bool × ℕ × ℕ) :=
  match format_answers step with
  | none => none
  | some plan =>
    if plan.fragmented then
      if plan.answers.length = 0 then none
      else
        let tta := hours / plan.answers.length
        let r := run_fragments tta base resp plan.answers version true 0
        some (r.1, r.2.1, r.2.2, plan.answers.length)
    else
      let p := get_answer version hours base plan.answers
      some ([p], (resp 0).status == 200, version, 1)

/-- A `{id, title}` lesson (sequence) entry of an assigned course. -/
structure CourseLesson where
  id : String
  title : String
  deriving Repr, DecidableEq

/-- An assigned course as returned by `getCoursesAndProgress`. -/
structure AssignedCourse where
  courseId : String
  title : String
  sequences : List CourseLesson
  deriving Repr, DecidableEq

/-- A `{id, title, slug}` record appended to a course's eligible-lesson
list by `_get_courses`. -/
structure EligLesson where
  id : String
  title : String
  slug : String
  deriving Repr, DecidableEq

/-- The record `_get_courses` builds for an eligible lesson; `slug` is the
external `slugify` function, passed as a parameter. -/
def mk_elig (slug : String → String) (l : CourseLesson) : EligLesson :=
  ⟨l.id, l.title, slug l.title⟩

/-- The inner loop of `_get_courses` (lines 207-214): keep a course's
lessons whose progress is at or below the threshold, as
`{id, title, slug}` records. -/
def eligible_lessons (slug : String → String) (progress : List ProgressCourse)
    (threshold : ℚ) (c : AssignedCourse) : List EligLesson :=
  (c.sequences.filter
      (fun l => get_lesson_progress progress c.courseId l.id ≤ threshold)).map
    (mk_elig slug)

/-- The value stored per course id by `_get_courses`. -/
structure CourseInfo where
  title : String
  lessons : List EligLesson
  deriving Repr, DecidableEq

/-- `d[k] = v` on a Python (insertion-ordered) dict modelled as an
association list: replace in place if the key is present, append
otherwise. -/
def dict_insert (k : String) (v : CourseInfo) :
    List (String × CourseInfo) → List (String × CourseInfo)
  | [] => [(k, v)]
  | (k', v') :: rest =>
    if k' = k then (k, v) :: rest else (k', v') :: dict_insert k v rest

/-- The filtering loop of `_get_courses` (lines 205-219), processing the
assigned courses in order over the accumulated dict: a course enters the
result dict only when its eligible-lesson list is non-empty. -/
def get_courses_loop (slug : String → String)
    (progress : List ProgressCourse) (threshold : ℚ) :
    List AssignedCourse → List (String × CourseInfo) →
    List (String × CourseInfo)
  | [], acc => acc
  | c :: rest, acc =>
    get_courses_loop slug progress threshold rest
      (if (eligible_lessons slug progress threshold c).length > 0 then
        dict_insert c.courseId
          ⟨c.title, eligible_lessons slug progress threshold c⟩ acc
      else acc)

/-- The course dict built by `_get_courses` from the parsed query result,
starting from the empty dict. -/
def get_courses (slug : String → String) (progress : List ProgressCourse)
    (assigned : List AssignedCourse) (threshold : ℚ) :
    List (String × CourseInfo) :=
  get_courses_loop slug progress threshold assigned []

/-- `_get_courses` after a successful query (lines 221-225): `exit(0)`
("No courses to complete", a success status with no work) when the dict is
empty, modelled as `none`; otherwise the dict is returned. -/
def get_courses_result (slug : String → String)
    (progress : List ProgressCourse) (assigned : List AssignedCourse)
    (threshold : ℚ) : Option (List (String × CourseInfo)) :=
  let courses := get_courses slug progress assigned threshold
  if courses.length = 0 then none else some courses

/-- The lesson count of `_calculate_hours` (lines 227-232): total number
of eligible lessons over all kept courses. -/
def count_lessons (courses : List (String × CourseInfo)) : ℕ :=
  (courses.map (fun p => p.2.lessons.length)).sum

/-- `self.hours_per_lesson = self.hours_todo / count_lessons`
(line 232). -/
def calculate_hours (hours_todo : ℚ)
    (courses : List (String × CourseInfo)) : ℚ :=
  hours_todo / (count_lessons courses : ℚ)

/-- `hours_per_activity = self.hours_per_lesson / len(activities)`
(line 333). -/
def hours_per_activity (hours_per_lesson : ℚ) (activityCount : ℕ) : ℚ :=
  hours_per_lesson / (activityCount : ℚ)

/-- `random_hours = hours_per_activity + hours_per_activity *
random.uniform(0., 0.1)` (line 337), with the drawn jitter `u` made an
explicit parameter. -/
def step_hours (hpa u : ℚ) : ℚ :=
  hpa + hpa * u

/-- The `try: float(input(...)) except ValueError:` block of `__init__`
(lines 111-115): `parsed` is the outcome of Python's `float` on the
operator's input (`none` = `ValueError`); an unparseable input falls back
to the default. -/
def resolve_hours (parsed : Option ℚ) (default : ℚ) : ℚ :=
  parsed.getD default

/-- An activity of a lesson's `getSequence` result: its id and steps (the
localized titles only feed the log and are dropped). -/
structure Activity where
  activityId : String
  steps : List Step
  deriving Repr, DecidableEq

/-- The run's environment: everything the server and the random generator
feed the script.  `activitiesOf course_id slug` is the parsed
`sequence.activities` of the `getSequence` query; `responses` the stream
of submission responses, indexed by the global POST count; `jitter` the
stream of `random.uniform(0., 0.1)` draws, indexed by the global step
count; `slug` the external `slugify`. -/
structure Env where
  authStatus : ℕ
  user_id : String
  coursesStatus : ℕ
  assigned : List AssignedCourse
  progress : List ProgressCourse
  activitiesOf : String → String → List Activity
  responses : ℕ → Response
  jitter : ℕ → ℚ
  slug : String → String

/-- The mutable run state threaded through the lesson loops: the session's
schema `version`, the number of submission POSTs issued so far (`req`),
and the number of steps processed so far (`stp`). -/
structure RunSt where
  version : ℕ
  req : ℕ
  stp : ℕ
  deriving Repr, DecidableEq

/-- The step loop of `_complete_lesson` (lines 336-341) over one
activity's steps: draw the jitter, run `_complete_step`, thread version
and counters.  `none` propagates a crash. -/
def run_steps (env : Env) (base : ReqBase) (hpa : ℚ) :
    List Step → RunSt → Option (List Payload × RunSt)
  | [], st => some ([], st)
  | s :: rest, st =>
    let hours := step_hours hpa (env.jitter st.stp)
    match complete_step { base with activity_step_id := s.activityStepId } s
        hours st.version (fun i => env.responses (st.req + i)) with
    | none => none
    | some (ps, _success, v', used) =>
      match run_steps env base hpa rest ⟨v', st.req + used, st.stp + 1⟩ with
      | none => none
      | some (ps', st') => some (ps ++ ps', st')

/-- The activity loop of `_complete_lesson` (lines 334-342). -/
def run_activities (env : Env) (user_id course_id sequence_id : String)
    (hpa : ℚ) : List Activity → RunSt → Option (List Payload × RunSt)
  | [], st => some ([], st)
  | a :: rest, st =>
    match run_steps env ⟨user_id, course_id, sequence_id, a.activityId, ""⟩
        hpa a.steps st with
    | none => none
    | some (ps, st') =>
      match run_activities env user_id course_id sequence_id hpa rest st' with
      | none => none
      | some (ps', st'') => some (ps ++ ps', st'')

/-- Embedding of `_complete_lesson` (lines 305-342): fetch the lesson's
activities, compute `hours_per_activity`, and run every step of every
activity.  An empty activity list is a `ZeroDivisionError` in Python,
hence `none`. -/
def complete_lesson (env : Env) (user_id course_id : String)
    (lesson : EligLesson) (hpl : ℚ) (st : RunSt) :
    Option (List Payload × RunSt) :=
  let acts := env.activitiesOf course_id lesson.slug
  if acts.length = 0 then none
  else
    run_activities env user_id course_id lesson.id
      (hours_per_activity hpl acts.length) acts st

/-- The lesson loop of `__init__` (lines 131-133). -/
def run_lessons (env : Env) (user_id course_id : String) (hpl : ℚ) :
    List EligLesson → RunSt → Option (List Payload × RunSt)
  | [], st => some ([], st)
  | l :: rest, st =>
    match complete_lesson env user_id course_id l hpl st with
    | none => none
    | some (ps, st') =>
      match run_lessons env user_id course_id hpl rest st' with
      | none => none
      | some (ps', st'') => some (ps ++ ps', st'')

/-- The course loop of `__init__` (lines 129-133). -/
def run_courses (env : Env) (user_id : String) (hpl : ℚ) :
    List (String × CourseInfo) → RunSt → Option (List Payload × RunSt)
  | [], st => some ([], st)
  | (cid, info) :: rest, st =>
    match run_lessons env user_id cid hpl info.lessons st with
    | none => none
    | some (ps, st') =>
      match run_courses env user_id hpl rest st' with
      | none => none
      | some (ps', st'') => some (ps ++ ps', st'')

/-- How a run terminates.  `fatalAuth`/`fatalCourses` are the `exit(1)`
calls of `_authenticate`/`_get_courses`; `noWork` is the `exit(0)` of
`_get_courses` when nothing is eligible (a success status); `crashed` is
an unhandled Python exception; `completed` is falling off the end of
`__init__`. -/
inductive RunOutcome where
  | fatalAuth
  | fatalCourses
  | noWork
  | crashed
  | completed
  deriving Repr, DecidableEq

/-- Whether the process exit status is 0. -/
def RunOutcome.isSuccess : RunOutcome → Bool
  | .noWork => true
  | .completed => true
  | _ => false

/-- Embedding of the whole run (`__init__`, lines 107-133): resolve the
target hours, authenticate, discover courses, allocate hours, and drive
every lesson.  The session version starts at 1 (line 126).  Returns the
outcome together with every submission payload POSTed during the run, in
order. -/
def run (env : Env) (hoursInput : Option ℚ) (threshold : ℚ) :
    RunOutcome × List Payload :=
  let hours_todo := resolve_hours hoursInput 20
  if env.authStatus ≠ 200 then (.fatalAuth, [])
  else if env.coursesStatus ≠ 200 then (.fatalCourses, [])
  else
    match get_courses_result env.slug env.progress env.assigned threshold with
    | none => (.noWork, [])
    | some courses =>
      let hpl := calculate_hours hours_todo courses
      match run_courses env env.user_id hpl courses ⟨1, 0, 0⟩ with
      | none => (.crashed, [])
      | some (ps, _) => (.completed, ps)

lemma run_fragments_cons (tta : ℚ) (base : ReqBase) (resp : ℕ → Response)
    (a : Answer) (rest : List Answer) (v : ℕ) (s : Bool) (i : ℕ) :
    run_fragments tta base resp (a :: rest) v s i =
      (get_answer v tta base [a] ::
         (run_fragments tta base resp rest
           (if s then answer_success v (resp i) else (v, false)).1
           (if s then answer_success v (resp i) else (v, false)).2
           (i + 1)).1,
       (run_fragments tta base resp rest
           (if s then answer_success v (resp i) else (v, false)).1
           (if s then answer_success v (resp i) else (v, false)).2
           (i + 1)).2) := rfl

lemma run_fragments_cons_dead (tta : ℚ) (base : ReqBase)
    (resp : ℕ → Response) (a : Answer) (rest : List Answer) (v : ℕ)
    (i : ℕ) :
    run_fragments tta base resp (a :: rest) v false i =
      (get_answer v tta base [a] ::
         (run_fragments tta base resp rest v false (i + 1)).1,
       (run_fragments tta base resp rest v false (i + 1)).2) := rfl

lemma run_fragments_cons_ok (tta : ℚ) (base : ReqBase)
    (resp : ℕ → Response) (a : Answer) (rest : List Answer) (v : ℕ)
    (i : ℕ) (he : (resp i).hasErrors = false) :
    run_fragments tta base resp (a :: rest) v true i =
      (get_answer v tta base [a] ::
         (run_fragments tta base resp rest v true (i + 1)).1,
       (run_fragments tta base resp rest v true (i + 1)).2) := by
  rw [run_fragments_cons]
  simp [answer_success, he]

lemma run_fragments_cons_err (tta : ℚ) (base : ReqBase)
    (resp : ℕ → Response) (a : Answer) (rest : List Answer) (v : ℕ)
    (i : ℕ) (he : (resp i).hasErrors = true) :
    run_fragments tta base resp (a :: rest) v true i =
      (get_answer v tta base [a] ::
         (run_fragments tta base resp rest ((v + 1) % 2) false (i + 1)).1,
       (run_fragments tta base resp rest ((v + 1) % 2) false (i + 1)).2) := by
  rw [run_fragments_cons]
  simp [answer_success, he]

lemma run_fragments_map_answers (tta : ℚ) (base : ReqBase)
    (resp : ℕ → Response) :
    ∀ (answers : List Answer) (v : ℕ) (s : Bool) (i : ℕ),
      (run_fragments tta base resp answers v s i).1.map Payload.answers =
        answers.map (fun a => [a]) := by
  intro answers
  induction answers with
  | nil => intro v s i; rfl
  | cons a rest ih =>
    intro v s i
    rw [run_fragments_cons]
    simp only [List.map_cons]
    rw [ih]
    rfl

lemma run_fragments_length (tta : ℚ) (base : ReqBase)
    (resp : ℕ → Response) :
    ∀ (answers : List Answer) (v : ℕ) (s : Bool) (i : ℕ),
      (run_fragments tta base resp answers v s i).1.length =
        answers.length := by
  intro answers
  induction answers with
  | nil => intro v s i; rfl
  | cons a rest ih =>
    intro v s i
    rw [run_fragments_cons]
    simp only [List.length_cons]
    rw [ih]

lemma run_fragments_duration (tta : ℚ) (base : ReqBase)
    (resp : ℕ → Response) :
    ∀ (answers : List Answer) (v : ℕ) (s : Bool) (i : ℕ)
      (p : Payload), p ∈ (run_fragments tta base resp answers v s i).1 →
      p.durationMs = py_int (tta * 60 * 60 * 1000) := by
  intro answers
  induction answers with
  | nil => intro v s i p hp; cases hp
  | cons a rest ih =>
    intro v s i p hp
    rw [run_fragments_cons] at hp
    rcases List.mem_cons.mp hp with h | h
    · rw [h]; rfl
    · exact ih _ _ _ _ h

lemma run_fragments_dead (tta : ℚ) (base : ReqBase) (resp : ℕ → Response) :
    ∀ (answers : List Answer) (v : ℕ) (i : ℕ),
      (run_fragments tta base resp answers v false i).2 = (false, v) := by
  intro answers
  induction answers with
  | nil => intro v i; rfl
  | cons a rest ih =>
    intro v i
    rw [run_fragments_cons_dead]
    exact ih _ _

lemma run_fragments_success_iff (tta : ℚ) (base : ReqBase)
    (resp : ℕ → Response) :
    ∀ (answers : List Answer) (v : ℕ) (i : ℕ),
      ((run_fragments tta base resp answers v true i).2.1 = true ↔
        ∀ j < answers.length, (resp (i + j)).hasErrors = false) := by
  intro answers
  induction answers with
  | nil =>
    intro v i
    constructor
    · intro _ j hj; exact absurd hj (Nat.not_lt_zero j)
    · intro _; rfl
  | cons a rest ih =>
    intro v i
    by_cases he : (resp i).hasErrors = true
    · rw [run_fragments_cons_err tta base resp a rest v i he]
      rw [show (run_fragments tta base resp rest ((v + 1) % 2) false (i + 1)).2.1 =
            (false, (v + 1) % 2).1 from congrArg Prod.fst (run_fragments_dead tta base resp rest _ _)]
      constructor
      · intro hfalse; exact absurd hfalse (by simp)
      · intro hall
        have h0 := hall 0 (Nat.succ_pos _)
        rw [Nat.add_zero] at h0
        rw [h0] at he
        exact absurd he (by simp)
    · have he' : (resp i).hasErrors = false := by
        cases h : (resp i).hasErrors
        · rfl
        · exact absurd h he
      rw [run_fragments_cons_ok tta base resp a rest v i he']
      rw [ih v (i + 1)]
      constructor
      · intro hall j hj
        match j, hj with
        | 0, _ => rw [Nat.add_zero]; exact he'
        | (k + 1), hk =>
          have hr := hall k (Nat.lt_of_succ_lt_succ hk)
          have harith : i + 1 + k = i + (k + 1) := by omega
          rwa [harith] at hr
      · intro hall k hk
        have hr := hall (k + 1) (Nat.succ_lt_succ hk)
        have harith : i + (k + 1) = i + 1 + k := by omega
        rwa [harith] at hr

lemma run_fragments_version_clean (tta : ℚ) (base : ReqBase)
    (resp : ℕ → Response) :
    ∀ (answers : List Answer) (v : ℕ) (i : ℕ),
      (∀ j < answers.length, (resp (i + j)).hasErrors = false) →
      (run_fragments tta base resp answers v true i).2.2 = v := by
  intro answers
  induction answers with
  | nil => intro v i _; rfl
  | cons a rest ih =>
    intro v i hall
    have h0 : (resp i).hasErrors = false := by
      have := hall 0 (Nat.succ_pos _)
      rwa [Nat.add_zero] at this
    rw [run_fragments_cons_ok tta base resp a rest v i h0]
    refine ih v (i + 1) ?_
    intro k hk
    have hr := hall (k + 1) (Nat.succ_lt_succ hk)
    have harith : i + (k + 1) = i + 1 + k := by omega
    rwa [harith] at hr

lemma complete_step_single (base : ReqBase) (step : Step)
    (plan : SubmissionPlan) (hours : ℚ) (v : ℕ) (resp : ℕ → Response)
    (hplan : format_answers step = some plan)
    (hfrag : plan.fragmented = false) :
    complete_step base step hours v resp =
      some ([get_answer v hours base plan.answers],
        (resp 0).status == 200, v, 1) := by
  simp [complete_step, hplan, hfrag]

lemma complete_step_frag (base : ReqBase) (step : Step)
    (plan : SubmissionPlan) (hours : ℚ) (v : ℕ) (resp : ℕ → Response)
    (hplan : format_answers step = some plan)
    (hfrag : plan.fragmented = true)
    (hne : plan.answers.length ≠ 0) :
    complete_step base step hours v resp =
      some ((run_fragments (hours / (plan.answers.length : ℚ)) base resp
              plan.answers v true 0).1,
            (run_fragments (hours / (plan.answers.length : ℚ)) base resp
              plan.answers v true 0).2.1,
            (run_fragments (hours / (plan.answers.length : ℚ)) base resp
              plan.answers v true 0).2.2,
            plan.answers.length) := by
  simp [complete_step, hplan, hfrag, hne]

lemma py_int_of_nonneg (q : ℚ) (h : 0 ≤ q) : py_int q = ⌊q⌋ := by
  unfold py_int
  rw [if_neg (not_lt.mpr h)]

lemma step_hours_nonneg (hpa u : ℚ) (hhpa : 0 ≤ hpa) (hu0 : 0 ≤ u) :
    0 ≤ step_hours hpa u := by
  unfold step_hours
  nlinarith

lemma duration_bounds (hpa u K : ℚ) (hhpa : 0 ≤ hpa) (hu0 : 0 ≤ u)
    (hu1 : u ≤ 1 / 10) (hK : 1 ≤ K) :
    ⌊hpa * 3600000 / K⌋ ≤ py_int (step_hours hpa u / K * 60 * 60 * 1000) ∧
    py_int (step_hours hpa u / K * 60 * 60 * 1000) ≤
      ⌊hpa * (11 / 10) * 3600000 / K⌋ := by
  have hKpos : (0 : ℚ) < K := lt_of_lt_of_le one_pos hK
  have hsh : 0 ≤ step_hours hpa u := step_hours_nonneg hpa u hhpa hu0
  have hx0 : 0 ≤ step_hours hpa u / K * 60 * 60 * 1000 := by positivity
  rw [py_int_of_nonneg _ hx0]
  have hrew : step_hours hpa u / K * 60 * 60 * 1000 =
      step_hours hpa u * 3600000 / K := by ring
  constructor
  · apply Int.floor_le_floor
    rw [hrew]
    rw [div_le_div_iff_of_pos_right hKpos]
    unfold step_hours
    nlinarith
  · apply Int.floor_le_floor
    rw [hrew]
    rw [div_le_div_iff_of_pos_right hKpos]
    unfold step_hours
    nlinarith

lemma dict_insert_mem (k : String) (v : CourseInfo) :
    ∀ (l : List (String × CourseInfo)) (e : String × CourseInfo),
      e ∈ dict_insert k v l → e = (k, v) ∨ e ∈ l := by
  intro l
  induction l with
  | nil =>
    intro e he
    simp only [dict_insert, List.mem_singleton] at he
    exact Or.inl he
  | cons hd tl ih =>
    intro e he
    obtain ⟨k', v'⟩ := hd
    by_cases hk : k' = k
    · simp only [dict_insert, if_pos hk] at he
      rcases List.mem_cons.mp he with h | h
      · exact Or.inl h
      · exact Or.inr (List.mem_cons_of_mem _ h)
    · simp only [dict_insert, if_neg hk] at he
      rcases List.mem_cons.mp he with h | h
      · exact Or.inr (h ▸ List.mem_cons_self _ _)
      · rcases ih e h with h' | h'
        · exact Or.inl h'
        · exact Or.inr (List.mem_cons_of_mem _ h')

lemma get_courses_loop_ne_nil (slug : String → String)
    (progress : List ProgressCourse) (threshold : ℚ) :
    ∀ (assigned : List AssignedCourse) (acc : List (String × CourseInfo)),
      (∀ e ∈ acc, e.2.lessons ≠ []) →
      ∀ e ∈ get_courses_loop slug progress threshold assigned acc,
        e.2.lessons ≠ [] := by
  intro assigned
  induction assigned with
  | nil => intro acc hacc e he; exact hacc e he
  | cons c rest ih =>
    intro acc hacc e he
    simp only [get_courses_loop] at he
    by_cases hcond : (eligible_lessons slug progress threshold c).length > 0
    · rw [if_pos hcond] at he
      refine ih _ ?_ e he
      intro e' he'
      rcases dict_insert_mem _ _ _ _ he' with h | h
      · rw [h]
        exact List.length_pos.mp hcond
      · exact hacc e' h
    · rw [if_neg hcond] at he
      exact ih _ hacc e he

lemma get_courses_ne_nil (slug : String → String)
    (progress : List ProgressCourse) (assigned : List AssignedCourse)
    (threshold : ℚ) :
    ∀ e ∈ get_courses slug progress assigned threshold,
      e.2.lessons ≠ [] := by
  intro e he
  exact get_courses_loop_ne_nil slug progress threshold assigned []
    (fun e' he' => absurd he' (List.not_mem_nil e')) e he

lemma get_lesson_progress_absent :
    ∀ (progress : List ProgressCourse) (cid lid : String),
      (∀ pc ∈ progress, pc.courseId = cid → ∀ s ∈ pc.sequences, s.id ≠ lid) →
      get_lesson_progress progress cid lid = 0 := by
  intro progress
  induction progress with
  | nil => intro cid lid _; rfl
  | cons pc rest ih =>
    intro cid lid habs
    have htail : ∀ pc' ∈ rest, pc'.courseId = cid →
        ∀ s ∈ pc'.sequences, s.id ≠ lid :=
      fun pc' h' => habs pc' (List.mem_cons_of_mem _ h')
    simp only [get_lesson_progress]
    by_cases hc : pc.courseId = cid
    · rw [if_pos hc]
      have hfind : pc.sequences.find? (fun s => s.id == lid) = none := by
        apply List.find?_eq_none.mpr
        intro s hs
        simpa using habs pc (List.mem_cons_self _ _) hc s hs
      rw [hfind]
      exact ih cid lid htail
    · rw [if_neg hc]
      exact ih cid lid htail

lemma eligible_mem_iff (slug : String → String)
    (progress : List ProgressCourse) (threshold : ℚ) (c : AssignedCourse)
    (l : CourseLesson) (hl : l ∈ c.sequences) :
    mk_elig slug l ∈ eligible_lessons slug progress threshold c ↔
      get_lesson_progress progress c.courseId l.id ≤ threshold := by
  constructor
  · intro hmem
    obtain ⟨l', hl', heq⟩ := List.mem_map.mp hmem
    have hfilter := List.mem_filter.mp hl'
    have hid : l'.id = l.id := congrArg EligLesson.id heq
    have hle := of_decide_eq_true hfilter.2
    rwa [hid] at hle
  · intro hle
    exact List.mem_map.mpr ⟨l, List.mem_filter.mpr ⟨hl, decide_eq_true hle⟩, rfl⟩

/-- Concrete request identifiers for witnesses and counterexamples. -/
def exBase : ReqBase := ⟨"user-1", "course-1", "lesson-1", "act-1", "step-1"⟩

/-- A response stream of clean 200 responses. -/
def okResp : ℕ → Response := fun _ => ⟨200, false⟩

/-- A response stream whose bodies all carry an `errors` list, with
transport status 200. -/
def errResp : ℕ → Response := fun _ => ⟨200, true⟩

/-- A vocabulary step whose carousel flattens to two cards. -/
def vocabStep2 : Step :=
  ⟨"card", [⟨none, some [[⟨"cardA"⟩, ⟨"cardB"⟩]]⟩], [], "step-1"⟩

/-- A multiple-choice step with one correct answer. -/
def mcStep : Step := ⟨"multipleChoice", [], ["b"], "step-1"⟩

/-- A `"card"` step whose first content element has neither an
`additionalContent` nor a `carousel` key (a Pronunciation/Grammar-style
card). -/
def bareCardStep : Step := ⟨"card", [⟨none, none⟩], [], "step-1"⟩

/-- The first payload of `vocabStep2`'s fragmented submission at
`hpa = 1`, `u = 0`. -/
def c2Payload : Payload :=
  get_answer 1 (step_hours 1 0 / 2) exBase [⟨"SS:cardA:1:false", true⟩]

/-- The payload of `mcStep`'s single-shot submission at `hpa = 1`,
`u = 0`. -/
def mcPayload : Payload := get_answer 1 (step_hours 1 0) exBase [⟨"b", true⟩]

/-- A concrete assigned course with one lesson. -/
def exCourse : AssignedCourse :=
  ⟨"course-1", "Course 1", [⟨"lesson-1", "Lesson 1"⟩]⟩

/-- The discovery result for `[exCourse]` with an empty progress report:
the single lesson has progress 0 and is eligible. -/
def exCourses : List (String × CourseInfo) :=
  [("course-1", ⟨"Course 1", [⟨"lesson-1", "Lesson 1", "Lesson 1"⟩]⟩)]

/-- An environment whose discovery succeeds but yields no assigned
courses at all. -/
def exEnvEmpty : Env :=
  ⟨200, "user-1", 200, [], [], fun _ _ => [], fun _ => ⟨200, false⟩,
    fun _ => 0, fun s => s⟩

/-- **C3, counterexample.**  The claim says the answer formatter returns a
SubmissionPlan for every Step, including `"card"` steps whose first
content element has neither an `additionalContent` nor a `carousel` key.
On such a step the Python function falls through both inner branches and
implicitly returns `None`: the formatter does return an absent result. -/
theorem c3_counterexample : format_answers bareCardStep = none := rfl

/-- **C3, amended.**  `format_answers` returns a SubmissionPlan (with its
fragmented flag, answers list and title) exactly when the step is not a
`"card"` step, or its content starts with an element carrying an
`additionalContent` or a `carousel` key; for a `"card"` step missing both
keys (or with empty content) the result is absent (`None`). -/
theorem c3_total_amended (step : Step) :
    (format_answers step).isSome = true ↔
      (step.type ≠ "card" ∨
        ∃ c0, step.content.head? = some c0 ∧
          (c0.additionalContent.isSome ∨ c0.carousel.isSome)) := by
  by_cases ht : step.type = "card"
  · simp only [format_answers, if_pos ht, ht, ne_eq, not_true_eq_false,
      false_or]
    cases hc : step.content.head? with
    | none => simp
    | some c0 =>
      cases ha : c0.additionalContent with
      | some s => simp [ha]
      | none =>
        cases hcar : c0.carousel with
        | some g => simp [ha, hcar]
        | none => simp [ha, hcar]
  · simp [format_answers, if_neg ht, ht]

/-- **C5.**  Discovery eligibility: (1) a lesson absent from every
matching course entry of the progress report gets `percentComplete = 0`;
(2) a lesson of an assigned course enters the eligible set exactly when
its progress is `≤ threshold` (the boundary included); (3) every course
kept in the discovery result has a non-empty eligible-lesson list, i.e.
courses whose eligible list is empty are dropped. -/
theorem c5_eligibility (slug : String → String)
    (progress : List ProgressCourse) (threshold : ℚ)
    (assigned : List AssignedCourse) (c : AssignedCourse)
    (l : CourseLesson) (hl : l ∈ c.sequences) :
    ((∀ pc ∈ progress, pc.courseId = c.courseId →
        ∀ s ∈ pc.sequences, s.id ≠ l.id) →
      get_lesson_progress progress c.courseId l.id = 0) ∧
    (mk_elig slug l ∈ eligible_lessons slug progress threshold c ↔
      get_lesson_progress progress c.courseId l.id ≤ threshold) ∧
    (∀ e ∈ get_courses slug progress assigned threshold,
      e.2.lessons ≠ []) :=
  ⟨get_lesson_progress_absent progress c.courseId l.id,
    eligible_mem_iff slug progress threshold c l hl,
    get_courses_ne_nil slug progress assigned threshold⟩

/-- **C5, witness.**  A concrete instantiation: one assigned course with
one lesson, an empty progress report and threshold 1/5. -/
theorem c5_eligibility_witness :
    (⟨"lesson-1", "Lesson 1"⟩ : CourseLesson) ∈ exCourse.sequences ∧
    (mk_elig (fun s => s) ⟨"lesson-1", "Lesson 1"⟩ ∈
        eligible_lessons (fun s => s) [] (1 / 5) exCourse ↔
      get_lesson_progress [] exCourse.courseId "lesson-1" ≤ 1 / 5) := by
  constructor
  · exact List.mem_singleton.mpr rfl
  · exact (c5_eligibility (fun s => s) [] (1 / 5) [exCourse] exCourse
      ⟨"lesson-1", "Lesson 1"⟩ (List.mem_singleton.mpr rfl)).2.1

/-- **C8.**  Whenever `_get_courses` returns (rather than terminating the
run with the "no courses" success exit), the total eligible-lesson count
divided by in `_calculate_hours` is at least 1: the division by zero is
unreachable. -/
theorem c8_lesson_count_positive (slug : String → String)
    (progress : List ProgressCourse) (assigned : List AssignedCourse)
    (threshold : ℚ) (cs : List (String × CourseInfo))
    (h : get_courses_result slug progress assigned threshold = some cs) :
    1 ≤ count_lessons cs := by
  simp only [get_courses_result] at h
  by_cases hlen : (get_courses slug progress assigned threshold).length = 0
  · rw [if_pos hlen] at h; cases h
  · rw [if_neg hlen] at h
    have hcs : get_courses slug progress assigned threshold = cs :=
      Option.some.inj h
    obtain ⟨e, he⟩ :=
      List.exists_mem_of_length_pos (Nat.pos_of_ne_zero hlen)
    rw [hcs] at he
    have hne : e.2.lessons ≠ [] := by
      rw [← hcs] at he
      exact get_courses_ne_nil slug progress assigned threshold e he
    have h1 : 1 ≤ e.2.lessons.length :=
      Nat.one_le_iff_ne_zero.mpr
        (fun h0 => hne (List.length_eq_zero.mp h0))
    calc 1 ≤ e.2.lessons.length := h1
      _ ≤ count_lessons cs :=
        List.single_le_sum (fun x _ => Nat.zero_le x) _
          (List.mem_map_of_mem (fun p => p.2.lessons.length) he)

/-- **C8, witness.**  A concrete discovery with one eligible lesson. -/
theorem c8_lesson_count_positive_witness :
    get_courses_result (fun s => s) [] [exCourse] (1 / 5) =
      some exCourses ∧
    1 ≤ count_lessons exCourses := by
  have h : get_courses_result (fun s => s) [] [exCourse] (1 / 5) =
      some exCourses := by
    simp [get_courses_result, get_courses, get_courses_loop,
      eligible_lessons, dict_insert, exCourse, exCourses, mk_elig,
      get_lesson_progress]
  exact ⟨h, c8_lesson_count_positive (fun s => s) [] [exCourse] (1 / 5)
    exCourses h⟩

/-- **C6.**  Flat time allocation in exact rational arithmetic: every
lesson receives `hoursPerLesson = H / N`, so the `N` allocations sum back
to `H`; and within a lesson with `A` activities,
`hoursPerActivity * A = hoursPerLesson`. -/
theorem c6_even_allocation (H : ℚ) (cs : List (String × CourseInfo))
    (A : ℕ) (hN : 1 ≤ count_lessons cs) (hA : 1 ≤ A) :
    (List.replicate (count_lessons cs) (calculate_hours H cs)).sum = H ∧
    hours_per_activity (calculate_hours H cs) A * (A : ℚ) =
      calculate_hours H cs := by
  have hN0 : ((count_lessons cs : ℚ)) ≠ 0 :=
    Nat.cast_ne_zero.mpr (by omega)
  have hA0 : ((A : ℚ)) ≠ 0 := Nat.cast_ne_zero.mpr (by omega)
  constructor
  · rw [List.sum_replicate, nsmul_eq_mul, calculate_hours]
    field_simp
  · rw [hours_per_activity]
    field_simp

/-- **C6, witness.**  `H = 10`, one eligible lesson, `A = 5`
activities. -/
theorem c6_even_allocation_witness :
    1 ≤ count_lessons exCourses ∧ 1 ≤ 5 ∧
    (List.replicate (count_lessons exCourses)
      (calculate_hours 10 exCourses)).sum = 10 ∧
    hours_per_activity (calculate_hours 10 exCourses) 5 * (5 : ℚ) =
      calculate_hours 10 exCourses := by
  have h := c6_even_allocation 10 exCourses 5 (by norm_num [count_lessons,
    exCourses]) (by norm_num)
  exact ⟨by norm_num [count_lessons, exCourses], by norm_num, h.1, h.2⟩

/-- **C9.**  If authentication and the discovery query both succeed but
discovery yields zero eligible lessons, the run terminates with the
`noWork` outcome — a success exit status — and the list of submission
payloads it ever POSTs is empty. -/
theorem c9_no_work_success (env : Env) (hoursInput : Option ℚ)
    (threshold : ℚ)
    (hauth : env.authStatus = 200) (hdisc : env.coursesStatus = 200)
    (hempty : get_courses env.slug env.progress env.assigned threshold
      = []) :
    run env hoursInput threshold = (RunOutcome.noWork, []) ∧
    RunOutcome.noWork.isSuccess = true := by
  refine ⟨?_, rfl⟩
  simp [run, hauth, hdisc, get_courses_result, hempty]

/-- **C9, witness.**  A concrete environment whose discovery returns no
assigned courses. -/
theorem c9_no_work_success_witness :
    exEnvEmpty.authStatus = 200 ∧ exEnvEmpty.coursesStatus = 200 ∧
    get_courses exEnvEmpty.slug exEnvEmpty.progress exEnvEmpty.assigned
      (1 / 5) = [] ∧
    run exEnvEmpty none (1 / 5) = (RunOutcome.noWork, []) :=
  ⟨rfl, rfl, rfl,
    (c9_no_work_success exEnvEmpty none (1 / 5) rfl rfl rfl).1⟩

/-- **C10.**  An unparseable target-hours input does not abort the run:
the whole run behaves exactly as with the default of 20 hours; a
parseable input replaces the default exactly. -/
theorem c10_hours_default (env : Env) (threshold x : ℚ) :
    run env none threshold = run env (some 20) threshold ∧
    resolve_hours none 20 = 20 ∧ resolve_hours (some x) 20 = x :=
  ⟨rfl, rfl, rfl⟩

/-- **C10, witness.**  The fallback at a concrete environment and
input. -/
theorem c10_hours_default_witness :
    run exEnvEmpty none (1 / 5) = run exEnvEmpty (some 20) (1 / 5) ∧
    resolve_hours none 20 = 20 ∧ resolve_hours (some 7) 20 = 7 :=
  c10_hours_default exEnvEmpty (1 / 5) 7

/-- **C4.**  The two distinct success criteria of `_complete_step`: a
fragmented plan's step succeeds iff no fragment's parsed response body
contains an `errors` list; a single-shot plan's step succeeds iff the
transport status of its one POST is 200.  (For fragmented plans the
absence of errors over all fragments is exactly the AND-fold the code
computes, short-circuit included.) -/
theorem c4_success_criteria (base : ReqBase) (step : Step)
    (plan : SubmissionPlan) (hours : ℚ) (version : ℕ)
    (resp : ℕ → Response) (ps : List Payload) (ok : Bool) (v' used : ℕ)
    (hplan : format_answers step = some plan)
    (hrun : complete_step base step hours version resp =
      some (ps, ok, v', used)) :
    (plan.fragmented = true →
      (ok = true ↔
        ∀ j < plan.answers.length, (resp j).hasErrors = false)) ∧
    (plan.fragmented = false → (ok = true ↔ (resp 0).status = 200)) := by
  constructor
  · intro hfrag
    by_cases hlen : plan.answers.length = 0
    · rw [complete_step, hplan] at hrun
      simp only [hfrag, if_pos, hlen, if_true] at hrun
      cases hrun
    · rw [complete_step_frag base step plan hours version resp hplan hfrag
        hlen] at hrun
      simp only [Option.some.injEq, Prod.mk.injEq] at hrun
      obtain ⟨-, hok, -, -⟩ := hrun
      rw [← hok]
      have h := run_fragments_success_iff
        (hours / (plan.answers.length : ℚ)) base resp plan.answers
        version 0
      simpa using h
  · intro hfrag
    rw [complete_step_single base step plan hours version resp hplan
      hfrag] at hrun
    simp only [Option.some.injEq, Prod.mk.injEq] at hrun
    obtain ⟨-, hok, -, -⟩ := hrun
    rw [← hok]
    simp [beq_iff_eq]

/-- **C4, witness.**  A single-shot step at a clean 200 response. -/
theorem c4_success_criteria_witness :
    format_answers mcStep =
      some ⟨false, [⟨"b", true⟩], "Choix multiple"⟩ ∧
    complete_step exBase mcStep 1 1 okResp =
      some ([get_answer 1 1 exBase [⟨"b", true⟩]], true, 1, 1) ∧
    ((true : Bool) = true ↔ (okResp 0).status = 200) := by
  refine ⟨rfl, rfl, ?_⟩
  exact (c4_success_criteria exBase mcStep
    ⟨false, [⟨"b", true⟩], "Choix multiple"⟩ 1 1 okResp
    [get_answer 1 1 exBase [⟨"b", true⟩]] true 1 1 rfl rfl).2 rfl

/-- **C1, counterexample.**  The claim quantifies over every submission of
the run, "fragmented and single-shot alike".  But a single-shot submission
whose parsed response contains an `errors` list (with transport status
200) is reported successful and leaves the session's schema version
unchanged (still 1): `_answer_success` — the only place the version flips
— is reached from the fragmented branch only. -/
theorem c1_counterexample :
    ∃ ps used, complete_step exBase mcStep 1 1 errResp =
      some (ps, true, 1, used) := by
  refine ⟨[get_answer 1 1 exBase [⟨"b", true⟩]], 1, ?_⟩
  rw [complete_step_single exBase mcStep
    ⟨false, [⟨"b", true⟩], "Choix multiple"⟩ 1 1 errResp rfl rfl]
  rfl

/-- **C1, amended.**  The error-list discipline holds exactly for
fragmented submissions processed while the step's running success flag is
still true: there, a response with an `errors` list flips the session
version (`(v+1) % 2 ≠ v`) and the submission is reported failed, and a
response without one leaves the version unchanged and the flag true.
Once a fragment of a step has failed, Python's short-circuiting `and`
skips `_answer_success` for the step's remaining fragments, so their
responses — errors or not — leave both the version and the flag
untouched; and if no response of the step carries errors the version
after the whole step equals the version before it.  A single-shot
submission never changes the version at all. -/
theorem c1_version_flip_amended :
    (∀ (v : ℕ) (r : Response), r.hasErrors = true →
      (answer_success v r).1 ≠ v ∧ (answer_success v r).2 = false) ∧
    (∀ (v : ℕ) (r : Response), r.hasErrors = false →
      answer_success v r = (v, true)) ∧
    (∀ (tta : ℚ) (base : ReqBase) (resp : ℕ → Response)
      (answers : List Answer) (v i : ℕ),
      (run_fragments tta base resp answers v false i).2 = (false, v)) ∧
    (∀ (tta : ℚ) (base : ReqBase) (resp : ℕ → Response)
      (answers : List Answer) (v i : ℕ),
      (∀ j < answers.length, (resp (i + j)).hasErrors = false) →
      (run_fragments tta base resp answers v true i).2.2 = v) ∧
    (∀ (base : ReqBase) (step : Step) (plan : SubmissionPlan)
      (hours : ℚ) (v : ℕ) (resp : ℕ → Response) (ps : List Payload)
      (ok : Bool) (v' used : ℕ),
      format_answers step = some plan → plan.fragmented = false →
      complete_step base step hours v resp = some (ps, ok, v', used) →
      v' = v) := by
  refine ⟨?_, ?_, ?_, ?_, ?_⟩
  · intro v r hr
    unfold answer_success
    rw [if_pos hr]
    exact ⟨by simp only []; omega, rfl⟩
  · intro v r hr
    unfold answer_success
    rw [hr]
    simp
  · intro tta base resp answers v i
    exact run_fragments_dead tta base resp answers v i
  · intro tta base resp answers v i hclean
    exact run_fragments_version_clean tta base resp answers v i hclean
  · intro base step plan hours v resp ps ok v' used hplan hfrag hrun
    rw [complete_step_single base step plan hours v resp hplan hfrag]
      at hrun
    simp only [Option.some.injEq, Prod.mk.injEq] at hrun
    exact hrun.2.2.1.symm

/-- **C7.**  A vocabulary step — a `"card"` step whose first content
element has a `carousel` key and no `additionalContent` key — flattening
to `K ≥ 1` cards produces exactly `K` independent submission POSTs, each
payload carrying exactly one answer whose value is the fixed encoding
`"SS:<cardId>:1:false"` for that card, marked correct. -/
theorem c7_vocabulary_fanout (base : ReqBase) (step : Step)
    (c0 : ContentElem) (rest : List ContentElem)
    (groups : List (List Card)) (hours : ℚ) (version : ℕ)
    (resp : ℕ → Response)
    (ht : step.type = "card") (hc : step.content = c0 :: rest)
    (ha : c0.additionalContent = none) (hcar : c0.carousel = some groups)
    (hne : groups.flatten ≠ []) :
    ∃ ps ok v',
      complete_step base step hours version resp =
        some (ps, ok, v', groups.flatten.length) ∧
      ps.length = groups.flatten.length ∧
      ps.map Payload.answers = groups.flatten.map
        (fun card => [⟨"SS:" ++ card.id ++ ":1:false", true⟩]) := by
  have hplan : format_answers step = some
      ⟨true, groups.flatten.map
        (fun card => ⟨"SS:" ++ card.id ++ ":1:false", true⟩),
        "Vocabulaire"⟩ := by
    simp [format_answers, ht, hc, ha, hcar]
  have hlen : (groups.flatten.map
      (fun card => (⟨"SS:" ++ card.id ++ ":1:false", true⟩ : Answer))
      ).length ≠ 0 := by
    rw [List.length_map]
    intro h0
    exact hne (List.length_eq_zero.mp h0)
  have heq := complete_step_frag base step
    ⟨true, groups.flatten.map
      (fun card => ⟨"SS:" ++ card.id ++ ":1:false", true⟩),
      "Vocabulaire"⟩ hours version resp hplan rfl hlen
  have hlen2 : (groups.flatten.map
      (fun card => (⟨"SS:" ++ card.id ++ ":1:false", true⟩ : Answer))
      ).length = groups.flatten.length := List.length_map _ _
  simp only [] at heq
  rw [hlen2] at heq
  refine ⟨_, _, _, heq, ?_, ?_⟩
  · rw [run_fragments_length]
    exact hlen2
  · rw [run_fragments_map_answers, List.map_map]
    rfl

/-- **C7, witness.**  `vocabStep2` flattens to two cards and yields two
POSTs, one encoded answer each. -/
theorem c7_vocabulary_fanout_witness :
    vocabStep2.type = "card" ∧
    vocabStep2.content =
      ⟨none, some [[⟨"cardA"⟩, ⟨"cardB"⟩]]⟩ :: ([] : List ContentElem) ∧
    ([[(⟨"cardA"⟩ : Card), ⟨"cardB"⟩]].flatten ≠ []) ∧
    (∃ ps ok v',
      complete_step exBase vocabStep2 1 1 okResp =
        some (ps, ok, v',
          [[(⟨"cardA"⟩ : Card), ⟨"cardB"⟩]].flatten.length) ∧
      ps.length = [[(⟨"cardA"⟩ : Card), ⟨"cardB"⟩]].flatten.length ∧
      ps.map Payload.answers = [[(⟨"cardA"⟩ : Card), ⟨"cardB"⟩]].flatten.map
        (fun card => [⟨"SS:" ++ card.id ++ ":1:false", true⟩])) := by
  refine ⟨rfl, rfl, by simp, ?_⟩
  exact c7_vocabulary_fanout exBase vocabStep2 ⟨none,
    some [[⟨"cardA"⟩, ⟨"cardB"⟩]]⟩ [] [[⟨"cardA"⟩, ⟨"cardB"⟩]] 1 1 okResp
    rfl rfl rfl rfl (by simp)

/-- **C2, counterexample.**  The claim's bound
`durationMs ∈ [hpa*3_600_000, hpa*1.1*3_600_000]` fails for fragmented
submissions: a vocabulary step with 2 cards at `hpa = 1` (jitter 0)
splits the step's hours over the fragments, so each payload carries
durationMs = 1_800_000, below the claimed lower bound 3_600_000. -/
theorem c2_counterexample :
    (∃ rest ok v,
      complete_step exBase vocabStep2 (step_hours 1 0) 1 okResp =
        some (c2Payload :: rest, ok, v, 2)) ∧
    ¬ ((3600000 : ℤ) ≤ c2Payload.durationMs ∧
        c2Payload.durationMs ≤ 3960000) := by
  constructor
  · exact ⟨[get_answer 1 (step_hours 1 0 / 2) exBase
      [⟨"SS:cardB:1:false", true⟩]], true, 1, rfl⟩
  · intro h
    have hd : c2Payload.durationMs = 1800000 := by
      show py_int (step_hours 1 0 / 2 * 60 * 60 * 1000) = 1800000
      have hq : step_hours 1 0 / 2 * 60 * 60 * 1000 = (1800000 : ℚ) := by
        norm_num [step_hours]
      rw [hq, py_int_of_nonneg _ (by norm_num)]
      rw [show ((1800000 : ℚ)) = ((1800000 : ℤ) : ℚ) by norm_num,
        Int.floor_intCast]
    rw [hd] at h
    exact absurd h.1 (by norm_num)

/-- **C2, amended.**  Duration bounds as the code actually computes them
(`durationMs = int(stepHours * 3_600_000)` with
`stepHours = hpa * (1 + u)`, `u ∈ [0, 1/10]`): every payload of a
single-shot submission has `durationMs` in
`[⌊hpa*3_600_000⌋, ⌊hpa*1.1*3_600_000⌋]`; every payload of a fragmented
submission with `K` fragments carries `stepHours / K`, so its
`durationMs` lies in `[⌊hpa*3_600_000/K⌋, ⌊hpa*1.1*3_600_000/K⌋]`. -/
theorem c2_duration_amended (base : ReqBase) (step : Step)
    (plan : SubmissionPlan) (hpa u : ℚ) (version : ℕ)
    (resp : ℕ → Response) (ps : List Payload) (ok : Bool) (v' used : ℕ)
    (hplan : format_answers step = some plan)
    (hrun : complete_step base step (step_hours hpa u) version resp =
      some (ps, ok, v', used))
    (hhpa : 0 ≤ hpa) (hu0 : 0 ≤ u) (hu1 : u ≤ 1 / 10) :
    ∀ p ∈ ps,
      if plan.fragmented then
        ⌊hpa * 3600000 / (plan.answers.length : ℚ)⌋ ≤ p.durationMs ∧
          p.durationMs ≤
            ⌊hpa * (11 / 10) * 3600000 / (plan.answers.length : ℚ)⌋
      else
        ⌊hpa * 3600000⌋ ≤ p.durationMs ∧
          p.durationMs ≤ ⌊hpa * (11 / 10) * 3600000⌋ := by
  intro p hp
  cases hfrag : plan.fragmented with
  | false =>
    rw [complete_step_single base step plan (step_hours hpa u) version
      resp hplan hfrag] at hrun
    simp only [Option.some.injEq, Prod.mk.injEq] at hrun
    obtain ⟨hps, -, -, -⟩ := hrun
    rw [← hps] at hp
    have hpd : p = get_answer version (step_hours hpa u) base
        plan.answers := List.mem_singleton.mp hp
    have hdur : p.durationMs =
        py_int (step_hours hpa u * 60 * 60 * 1000) := by
      rw [hpd]; rfl
    simp only [if_neg (by simp : ¬(false : Bool) = true)]
    have hb := duration_bounds hpa u 1 hhpa hu0 hu1 le_rfl
    rw [div_one, div_one, div_one] at hb
    rw [hdur]
    exact hb
  | true =>
    by_cases hlen : plan.answers.length = 0
    · rw [complete_step, hplan] at hrun
      simp only [hfrag, if_pos, hlen, if_true] at hrun
      cases hrun
    · rw [complete_step_frag base step plan (step_hours hpa u) version
        resp hplan hfrag hlen] at hrun
      simp only [Option.some.injEq, Prod.mk.injEq] at hrun
      obtain ⟨hps, -, -, -⟩ := hrun
      rw [← hps] at hp
      have hdur := run_fragments_duration
        (step_hours hpa u / (plan.answers.length : ℚ)) base resp
        plan.answers version true 0 p hp
      have hK : (1 : ℚ) ≤ (plan.answers.length : ℚ) := by
        exact_mod_cast Nat.one_le_iff_ne_zero.mpr hlen
      have hb := duration_bounds hpa u (plan.answers.length : ℚ) hhpa
        hu0 hu1 hK
      simp only [if_pos rfl]
      rw [hdur]
      exact hb

/-- **C2 amended, witness.**  The single-shot `mcStep` at `hpa = 1`,
jitter 0. -/
theorem c2_duration_amended_witness :
    (0 : ℚ) ≤ 1 ∧ (0 : ℚ) ≤ 0 ∧ (0 : ℚ) ≤ 1 / 10 ∧
    (⌊(1 : ℚ) * 3600000⌋ ≤ mcPayload.durationMs ∧
      mcPayload.durationMs ≤ ⌊(1 : ℚ) * (11 / 10) * 3600000⌋) := by
  refine ⟨by norm_num, le_refl 0, by norm_num, ?_⟩
  have h := c2_duration_amended exBase mcStep
    ⟨false, [⟨"b", true⟩], "Choix multiple"⟩ 1 0 1 okResp [mcPayload]
    true 1 1 rfl rfl (by norm_num) (le_refl 0) (by norm_num)
  have h2 := h mcPayload (List.mem_singleton.mpr rfl)
  simpa using h2

/-- **C3 amended, witness.**  The amended equivalence instantiated at the
bare card step (both sides false). -/
theorem c3_total_amended_witness :
    (format_answers bareCardStep).isSome = true ↔
      (bareCardStep.type ≠ "card" ∨
        ∃ c0, bareCardStep.content.head? = some c0 ∧
          (c0.additionalContent.isSome ∨ c0.carousel.isSome)) :=
  c3_total_amended bareCardStep
